import Mathlib

set_option autoImplicit false

/-!
Shallow embedding of `app.py` (Fleet Nexis DTC interpreter), a Streamlit
script that fetches vehicle-diagnostic emails over IMAP, extracts a
device name and fault text with a regular expression, asks a completion
service for an interpretation, stores rows in a SQLite table
`dtc_logs`, and shows a filterable history.

Text is modelled as `List Char`.  The regex
`Device: (.*?)\nEvent: (.*?)\nSpeed:` (with DOTALL) used by
`extract_dtc_info` is lazy and unanchored, so its search semantics
reduce to "first occurrence" splitting: find the first occurrence of
the literal marker, then the first occurrence of the next marker after
it, and so on.  `splitFirst` below implements exactly that, and the
lemmas `splitFirst_sound`, `splitFirst_isSome_of_decomp` and
`splitFirst_append` relate it to decompositions of the text.
-/

/-- Python whitespace characters recognised by `str.strip()` (ASCII range). -/
def isPySpace (c : Char) : Bool :=
  c == ' ' || c == '\t' || c == '\n' || c == '\r' || c == '\x0b' || c == '\x0c'

/-- Python `str.strip()`: drop whitespace from both ends of the text. -/
def pyStrip (s : List Char) : List Char :=
  ((s.dropWhile isPySpace).reverse.dropWhile isPySpace).reverse

/-- First-occurrence splitter.  `splitFirst m s = some (a, b)` when
`s = a ++ m ++ b` and the shown occurrence of `m` is the leftmost one;
`none` when `m` does not occur in `s`.  This models one lazy gap
`(.*?)` of the regex, up to the next literal marker `m`. -/
def splitFirst (m : List Char) : List Char → Option (List Char × List Char)
  | [] =>
    match m with
    | [] => some ([], [])
    | _ :: _ => none
  | c :: cs =>
    match m.isPrefixOf (c :: cs) with
    | true => some ([], List.drop m.length (c :: cs))
    | false => (splitFirst m cs).map (fun p => (c :: p.1, p.2))

/-- Literal marker `"Device: "` of the extraction regex (app.py line 175). -/
def devM : List Char := "Device: ".toList

/-- Literal marker `"\nEvent: "` of the extraction regex (app.py line 175). -/
def evM : List Char := "\nEvent: ".toList

/-- Literal marker `"\nSpeed:"` of the extraction regex (app.py line 175). -/
def spM : List Char := "\nSpeed:".toList

/-- Literal marker `"Time: "` of the timestamp regex (app.py line 176). -/
def timeM : List Char := "Time: ".toList

/-- Newline terminator of the timestamp regex (app.py line 176). -/
def nlM : List Char := "\n".toList

/-- The placeholder sentinel `"N/A"` (app.py lines 181, 187, 188). -/
def naSentinel : List Char := "N/A".toList

/-- Output of `extract_dtc_info` (app.py lines 183-190): the dict with keys
vehicle_name, dtc_text, timestamp, gps_coordinates, location_address,
raw_email. -/
structure Frag where
  vehicle_name : List Char
  dtc_text : List Char
  timestamp : List Char
  gps_coordinates : List Char
  location_address : List Char
  raw_email : List Char
deriving DecidableEq

/-- The timestamp part of `extract_dtc_info` (app.py lines 176, 181):
`re.search(r'Time: (.*?)\n', text)` without DOTALL takes the text between
the first `"Time: "` and the first following newline; `"N/A"` when absent. -/
def extract_time (text : List Char) : List Char :=
  match splitFirst timeM text with
  | none => naSentinel
  | some (_, r) =>
    match splitFirst nlM r with
    | none => naSentinel
    | some (t, _) => pyStrip t

/-- Model of `extract_dtc_info` (app.py lines 174-191): locate the first
`"Device: "`, then the first `"\nEvent: "` after it, then the first
`"\nSpeed:"` after that; strip the two captures; `none` when the chain
of markers is absent. -/
def extract_dtc_info (text : List Char) : Option Frag :=
  match splitFirst devM text with
  | none => none
  | some (_, r1) =>
    match splitFirst evM r1 with
    | none => none
    | some (v, r2) =>
      match splitFirst spM r2 with
      | none => none
      | some (f, _) =>
        some { vehicle_name := pyStrip v, dtc_text := pyStrip f,
               timestamp := extract_time text,
               gps_coordinates := naSentinel, location_address := naSentinel,
               raw_email := text }

/-- A status message shown through the Streamlit placeholder channel
(`status_placeholder.info/.warning/.error/.success` in app.py). -/
inductive Status where
  | info (msg : String)
  | warning (msg : String)
  | error (msg : String)
  | success (msg : String)
deriving DecidableEq

/-- A raw message obtained from the mailbox: the decoded plain-text body
and the already-formatted `Date` header string
(`email_date.strftime(...)` in app.py line 157). -/
structure RawMsg where
  body : List Char
  dateHeader : List Char
deriving DecidableEq

/-- The mailbox transport, as an oracle for the four IMAP steps of
`fetch_emails` (app.py lines 109-111 and 123): constructor/connect,
login, select, search-and-fetch.  `Except.error` models the step
raising an exception. -/
structure Mailbox where
  connect : Except String Unit
  login : Except String Unit
  selectInbox : Except String Unit
  search : Except String (List RawMsg)

/-- A mailbox whose transport steps all succeed and whose search yields
the given messages. -/
def mkMailbox (msgs : List RawMsg) : Mailbox :=
  { connect := .ok (), login := .ok (), selectInbox := .ok (), search := .ok msgs }

/-- An entry of the `dtc_entries` list built by `fetch_emails`
(app.py lines 154-158): the extracted dict plus the keys `raw_email`
(overwritten with the same body) and `email_timestamp`. -/
structure Entry where
  vehicle_name : List Char
  dtc_text : List Char
  timestamp : List Char
  gps_coordinates : List Char
  location_address : List Char
  raw_email : List Char
  email_timestamp : List Char
deriving DecidableEq

/-- Per-message step of the fetch loop (app.py lines 154-158): run
`extract_dtc_info` on the body; on success attach the raw body and the
formatted date header, otherwise skip the message. -/
def processMsg (m : RawMsg) : Option Entry :=
  match extract_dtc_info m.body with
  | none => none
  | some f =>
    some { vehicle_name := f.vehicle_name, dtc_text := f.dtc_text,
           timestamp := f.timestamp, gps_coordinates := f.gps_coordinates,
           location_address := f.location_address,
           raw_email := m.body, email_timestamp := m.dateHeader }

/-- What `fetch_emails` hands back on a non-raising path: the collected
entries, the chronological log of status messages, and whether
`mail.logout()` was reached. -/
structure FetchResult where
  entries : List Entry
  statuses : List Status
  loggedOut : Bool
deriving DecidableEq

/-- Status emitted at app.py line 107, before the connection is opened. -/
def stConnecting : Status := .info ("Connecting to email server...")

/-- Status emitted at app.py line 117, before the search. -/
def stSearching : Status := .info ("Searching for emails from notify@onestepgps.com...")

/-- Model of `fetch_emails` (app.py lines 104-171).  The IMAP constructor, login
and select happen OUTSIDE the try block, so their exceptions propagate
(`Except.error`).  The try block covers the search and the per-message
processing; its handler reports the error on the status channel and
returns an empty list.  `mail.logout()` (line 165) is reached only on
the successful non-empty path; the no-results return (line 129) and the
except return (line 171) leave the connection open. -/
def fetch_emails (mb : Mailbox) : Except String FetchResult :=
  match mb.connect with
  | .error e => .error e
  | .ok _ =>
    match mb.login with
    | .error e => .error e
    | .ok _ =>
      match mb.selectInbox with
      | .error e => .error e
      | .ok _ =>
        match mb.search with
        | .error e =>
          .ok { entries := [],
                statuses := [stConnecting, stSearching,
                             .error (("Error searching emails: ") ++ e)],
                loggedOut := false }
        | .ok msgs =>
          match msgs with
          | [] =>
            .ok { entries := [],
                  statuses := [stConnecting, stSearching,
                               .warning ("No emails found in the selected date range.")],
                  loggedOut := false }
          | _ :: _ =>
            let entries := msgs.filterMap processMsg
            .ok { entries := entries,
                  statuses := [stConnecting, stSearching,
                               .info (("Processing " ++ toString msgs.length) ++ " emails..."),
                               .success (("Email processing complete! Found "
                                          ++ toString entries.length) ++ " emails.")],
                  loggedOut := true }

/-- Model of `interpret_dtc` (app.py lines 194-208).  The remote completion call
is an oracle `svc` from the fault text to either the completion text or
an exception.  The whole call sits in a try block whose handler reports
the failure on the status channel and returns the fixed fallback
string.  Returns the interpretation together with the statuses emitted. -/
def interpret_dtc (svc : List Char → Except String String) (dtc_text : List Char) :
    String × List Status :=
  match svc dtc_text with
  | .ok content =>
    (content, [.info ("Interpreting DTC codes..."), .success ("DTC interpretation complete!")])
  | .error e =>
    ("Error interpreting DTC code",
     [.info ("Interpreting DTC codes..."), .error (("Error interpreting DTC: ") ++ e)])

/-- The SQLite store: the `dtc_logs` table as its column-name list and
its list of rows.  Rows are kept abstract for the schema-migration
part (ALTER TABLE ADD COLUMN never rewrites or drops existing rows in
SQLite). -/
structure Table (α : Type) where
  cols : List String
  rows : List α
deriving DecidableEq

/-- Column list of the CREATE TABLE statement (app.py lines 70-80). -/
def createCols : List String :=
  ["id", "vehicle_name", "dtc_text", "ai_interpretation", "gps_coordinates",
   "location_address", "timestamp", "email_timestamp", "raw_email"]

/-- The `required_columns` dict of the migration branch (app.py lines
82-91), as (name, declared type) pairs in insertion order. -/
def required_columns : List (String × String) :=
  [("vehicle_name", "TEXT"), ("dtc_text", "TEXT"), ("ai_interpretation", "TEXT"),
   ("gps_coordinates", "TEXT"), ("location_address", "TEXT"),
   ("timestamp", "DATETIME DEFAULT CURRENT_TIMESTAMP"),
   ("email_timestamp", "TEXT"), ("raw_email", "TEXT")]

/-- Names of the required columns of the migration branch. -/
def requiredColumns : List String := required_columns.map Prod.fst

/-- Whether SQLite accepts `ALTER TABLE ... ADD COLUMN` for a column
declared with this type.  A declaration carrying a non-constant default
is rejected with "Cannot add a column with non-constant default", so
adding `timestamp DATETIME DEFAULT CURRENT_TIMESTAMP` to an existing
table always fails; the code catches the `sqlite3.OperationalError`,
reports it, and continues with the next column (app.py lines 95-98).
(`CREATE TABLE` does accept the non-constant default, so the creation
branch is unaffected.) -/
def addColumnOk (colType : String) : Bool :=
  colType != "DATETIME DEFAULT CURRENT_TIMESTAMP"

/-- Model of `init_db` (app.py lines 59-101).  `SELECT * FROM dtc_logs LIMIT 1`
yields the existing column names; the `sqlite3.OperationalError` of a
missing table yields `existing_columns = []` (modelled by `none`), in
which case the table is created.  Otherwise each required column that
is absent is subjected to `ALTER TABLE ... ADD COLUMN`: the add appends
the column and keeps every existing row when SQLite accepts the
declared type (`addColumnOk`), and raises an error that the code
catches and merely reports when it does not — so a missing `timestamp`
column is never actually added. -/
def init_db {α : Type} (s : Option (Table α)) : Table α :=
  match s with
  | none => { cols := createCols, rows := [] }
  | some t =>
    { cols := t.cols ++ (required_columns.filter
        (fun p => !(t.cols.contains p.1) && addColumnOk p.2)).map Prod.fst,
      rows := t.rows }

/-- A persisted row of `dtc_logs`.  `timestamp` is the store-assigned
creation instant (DATETIME DEFAULT CURRENT_TIMESTAMP), modelled as a
(date, time-of-day) pair so that `DATE(timestamp)` is the first
component; `email_timestamp` is the sender-asserted display string. -/
structure Row where
  id : Nat
  vehicle_name : List Char
  dtc_text : List Char
  ai_interpretation : String
  gps_coordinates : List Char
  location_address : List Char
  timestamp : Nat × Nat
  email_timestamp : List Char
  raw_email : List Char
deriving DecidableEq

/-- AUTOINCREMENT id assignment: one more than the largest id in the
table, starting at 1. -/
def nextId (t : Table Row) : Nat :=
  t.rows.foldl (fun m r => max m (r.id + 1)) 1

/-- The row appended by one INSERT of `save_to_db`, with the
store-assigned id and creation timestamp. -/
def insertedRow (t : Table Row) (vehicle dtc : List Char) (ai : String)
    (gps loc raw ets : List Char) (now : Nat × Nat) : Row :=
  { id := nextId t, vehicle_name := vehicle, dtc_text := dtc,
    ai_interpretation := ai, gps_coordinates := gps, location_address := loc,
    timestamp := now, email_timestamp := ets, raw_email := raw }

/-- Model of `save_to_db` (app.py lines 211-220): INSERT of the seven explicit
columns; `id` and `timestamp` are store-assigned (`now` is the insert
wall-clock instant). -/
def save_to_db (t : Table Row) (vehicle dtc : List Char) (ai : String)
    (gps loc raw ets : List Char) (now : Nat × Nat) : Table Row :=
  { t with rows := t.rows ++ [insertedRow t vehicle dtc ai gps loc raw ets now] }

/-- The ordering of `ORDER BY timestamp DESC` (app.py lines 289, 297):
row `a` may precede row `b` when `b.timestamp ≤ a.timestamp`
lexicographically. -/
def tsDescRel (a b : Row) : Prop :=
  b.timestamp.1 < a.timestamp.1 ∨
    (b.timestamp.1 = a.timestamp.1 ∧ b.timestamp.2 ≤ a.timestamp.2)

instance : DecidableRel tsDescRel := fun a b =>
  inferInstanceAs (Decidable (b.timestamp.1 < a.timestamp.1 ∨
    (b.timestamp.1 = a.timestamp.1 ∧ b.timestamp.2 ≤ a.timestamp.2)))

instance : IsTotal Row tsDescRel :=
  ⟨by intro a b; unfold tsDescRel; omega⟩

instance : IsTrans Row tsDescRel :=
  ⟨by intro a b c; unfold tsDescRel; omega⟩

/-- The optional exact vehicle filter of the history query
(app.py lines 285-299): `none` is "All Vehicles". -/
def vehicleMatches (vf : Option (List Char)) (r : Row) : Prop :=
  match vf with
  | none => True
  | some v => r.vehicle_name = v

instance (vf : Option (List Char)) (r : Row) : Decidable (vehicleMatches vf r) :=
  match vf with
  | none => .isTrue trivial
  | some v => inferInstanceAs (Decidable (r.vehicle_name = v))

/-- The WHERE clause of the history query (app.py lines 286-299):
`DATE(timestamp) BETWEEN start AND end` (inclusive on both ends) and,
when a vehicle is selected, `vehicle_name = ?`. -/
def historyPred (sd ed : Nat) (vf : Option (List Char)) (r : Row) : Bool :=
  decide (sd ≤ r.timestamp.1) && decide (r.timestamp.1 ≤ ed)
    && decide (vehicleMatches vf r)

/-- The history query of `show_history` (app.py lines 281-301): filter
rows by the inclusive date range on the store-assigned timestamp and
the optional exact vehicle name, ordered by timestamp descending. -/
def show_history (t : Table Row) (sd ed : Nat) (vf : Option (List Char)) : List Row :=
  List.insertionSort tsDescRel (t.rows.filter (historyPred sd ed vf))

/-- What one pipeline run returns: the store after the inserts and the
log of status messages. -/
structure RunResult where
  table : Table Row
  statuses : List Status
deriving DecidableEq

/-- Per-entry step of the fetch-and-analyze loop (app.py lines 253-264):
interpret the fault text, then `save_to_db` with the entry's fields. -/
def pipelineStep (svc : List Char → Except String String) (now : Nat × Nat)
    (acc : Table Row × List Status) (en : Entry) : Table Row × List Status :=
  let res := interpret_dtc svc en.dtc_text
  (save_to_db acc.1 en.vehicle_name en.dtc_text res.1 en.gps_coordinates
      en.location_address en.raw_email en.email_timestamp now,
   acc.2 ++ res.2)

/-- The `if fetch_analyze:` block (app.py lines 248-278): run
`fetch_emails`; when it raises, the exception propagates (no handler at
the run boundary); with zero entries only a warning is shown; otherwise
each entry is interpreted and saved sequentially. -/
def fetch_analyze (mb : Mailbox) (svc : List Char → Except String String)
    (st : Table Row) (now : Nat × Nat) : Except String RunResult :=
  match fetch_emails mb with
  | .error e => .error e
  | .ok fr =>
    match fr.entries with
    | [] =>
      .ok { table := st,
            statuses := fr.statuses ++ [.warning ("No DTC codes found in recent emails.")] }
    | _ :: _ =>
      let p := fr.entries.foldl (pipelineStep svc now) (st, fr.statuses)
      .ok { table := p.1,
            statuses := p.2 ++ [.success ("All DTCs processed and stored successfully!")] }

/-- Model of `get_unique_vehicles` (app.py lines 32-38): SELECT DISTINCT
vehicle_name FROM dtc_logs, with no exception handler; on a fresh store
(no `dtc_logs` table yet) the SELECT raises `sqlite3.OperationalError`. -/
def get_unique_vehicles (s : Option (Table Row)) : Except String (List (List Char)) :=
  match s with
  | none => .error ("no such table: dtc_logs")
  | some t => .ok ((t.rows.map Row.vehicle_name).eraseDups)

/-- Module-level startup order of app.py: `get_unique_vehicles()` runs at
line 50 (to populate the sidebar filter) and `init_db()` only later at
line 240, so on a fresh store the startup fails before the schema is
created. -/
def moduleStartup (s : Option (Table Row)) :
    Except String (List (List Char) × Table Row) :=
  match get_unique_vehicles s with
  | .error e => .error e
  | .ok vehicles => .ok (vehicles, init_db s)

/-- The scenario-A body from the spec. -/
def bodyA : List Char := "Device: Truck-12\nEvent: P0301 misfire\nSpeed: 0\n".toList

/-- A raw message carrying the scenario-A body. -/
def msgA : RawMsg := { body := bodyA, dateHeader := "d".toList }

/-- The extraction result on the scenario-A body. -/
def fragA : Frag :=
  { vehicle_name := "Truck-12".toList, dtc_text := "P0301 misfire".toList,
    timestamp := naSentinel, gps_coordinates := naSentinel,
    location_address := naSentinel, raw_email := bodyA }

/-- A body whose captures are whitespace-only: the block matches but both
strips are empty. -/
def bodyEmptyCaps : List Char := "Device: \nEvent: \nSpeed:".toList

/-- An interpretation service that always succeeds. -/
def svcOk : List Char → Except String String := fun _ => .ok ("interp")

/-- An interpretation service that always raises (e.g. a timeout). -/
def svcTimeout : List Char → Except String String := fun _ => .error ("timeout")

/-- The store right after `init_db` on a fresh database. -/
def emptyTable : Table Row := init_db none

/-- A mailbox whose search raises. -/
def mbSearchFail : Mailbox :=
  { connect := .ok (), login := .ok (), selectInbox := .ok (), search := .error ("bad query") }

/-- A mailbox whose connection attempt raises. -/
def mbConnFail : Mailbox :=
  { connect := .error ("conn refused"), login := .ok (), selectInbox := .ok (), search := .ok [] }

/-- A mailbox whose login raises. -/
def mbAuthFail : Mailbox :=
  { connect := .ok (), login := .error ("auth failed"), selectInbox := .ok (), search := .ok [] }

/-- A mailbox whose inbox selection raises. -/
def mbSelectFail : Mailbox :=
  { connect := .ok (), login := .ok (), selectInbox := .error ("select failed"), search := .ok [] }

/-- First line of the C1 counterexample body: begins with `Device:` but
without the space the regex demands. -/
def cexLine1 : List Char := "Device:Truck-12\n".toList

/-- Second line of the C1 counterexample body. -/
def cexLine2 : List Char := "Event: P0301 misfire\n".toList

/-- Third line of the C1 counterexample body. -/
def cexLine3 : List Char := "Speed: 0\n".toList

/-- A body made of a line beginning `Device:`, then a line beginning
`Event:`, then a line beginning `Speed:` — yet not matched by the code,
because `Device:` is not followed by a space. -/
def cexC1 : List Char := cexLine1 ++ cexLine2 ++ cexLine3

/-- The three-field block in the form the code actually matches:
`"Device: "` somewhere, then `"\nEvent: "`, then `"\nSpeed:"`. -/
def hasBlock (text : List Char) : Prop :=
  ∃ pre v f rest, text = pre ++ devM ++ v ++ evM ++ f ++ spM ++ rest

/-- A row originating from a successful extraction: its vehicle name,
fault text and raw body are the ones `extract_dtc_info` produced for
some source body. -/
def rowFromExtraction (r : Row) : Prop :=
  ∃ body frag, extract_dtc_info body = some frag
    ∧ r.vehicle_name = frag.vehicle_name
    ∧ r.dtc_text = frag.dtc_text
    ∧ r.raw_email = body

/-- The row persisted by the C2 witness run. -/
def c2WitnessRow : Row :=
  insertedRow emptyTable ("Truck-12".toList) ("P0301 misfire".toList) ("interp")
    naSentinel naSentinel bodyA ("d".toList) (1, 1)

/-- The table after the C2 witness run. -/
def c2Tbl : Table Row := { cols := createCols, rows := [c2WitnessRow] }

/-- The rows list of `s`, empty when the table does not exist. -/
def rowsOf {α : Type} (s : Option (Table α)) : List α :=
  match s with
  | none => []
  | some t => t.rows

/-- A row whose store-assigned date is exactly the end of the queried
range (the boundary case of the inclusive filter). -/
def rEnd : Row :=
  { id := 1, vehicle_name := "Truck-12".toList, dtc_text := "x".toList,
    ai_interpretation := "i", gps_coordinates := naSentinel,
    location_address := naSentinel, timestamp := (5, 3),
    email_timestamp := "e".toList, raw_email := "r".toList }

/-- A one-row store holding `rEnd`. -/
def tblEnd : Table Row := { cols := createCols, rows := [rEnd] }

/-- The result `fetch_emails` returns when the search raises: the error
is reported on the status channel, the entry list is empty, and the
connection was not logged out. -/
def searchFailResult (e : String) : FetchResult :=
  { entries := [],
    statuses := [stConnecting, stSearching, .error (("Error searching emails: ") ++ e)],
    loggedOut := false }

/-- Columns of a legacy `dtc_logs` table that predates the `timestamp`
column (every other expected column present). -/
def legacyCols : List String :=
  ["id", "vehicle_name", "dtc_text", "ai_interpretation", "gps_coordinates",
   "location_address", "email_timestamp", "raw_email"]

/-- A legacy one-row store whose table lacks the `timestamp` column. -/
def legacyTable : Table Nat := { cols := legacyCols, rows := [7] }

/-- Unfolding equation of `splitFirst` on a cons cell. -/
theorem splitFirst_cons (m : List Char) (c : Char) (cs : List Char) :
    splitFirst m (c :: cs) =
      match m.isPrefixOf (c :: cs) with
      | true => some ([], List.drop m.length (c :: cs))
      | false => (splitFirst m cs).map (fun p => (c :: p.1, p.2)) := rfl

/-- Soundness of the splitter: a successful split really is a decomposition
of the text around the marker. -/
theorem splitFirst_sound (m : List Char) :
    ∀ (s a b : List Char), splitFirst m s = some (a, b) → s = a ++ m ++ b := by
  intro s
  induction s with
  | nil =>
    intro a b h
    cases m with
    | nil =>
      simp only [splitFirst, Option.some.injEq, Prod.mk.injEq] at h
      obtain ⟨ha, hb⟩ := h
      subst ha; subst hb; rfl
    | cons x m' => exact Option.noConfusion h
  | cons c cs ih =>
    intro a b h
    rw [splitFirst_cons] at h
    cases hp : m.isPrefixOf (c :: cs) with
    | true =>
      simp only [hp, Option.some.injEq, Prod.mk.injEq] at h
      obtain ⟨ha, hb⟩ := h
      subst ha; subst hb
      obtain ⟨t, ht⟩ := List.isPrefixOf_iff_prefix.mp hp
      rw [← ht, List.drop_left]
      simp
    | false =>
      simp only [hp, Option.map_eq_some'] at h
      obtain ⟨p, hp1, hp2⟩ := h
      cases p with
      | mk p1 p2 =>
        cases hp2
        have := ih p1 p2 hp1
        simp [this]

/-- Completeness of the splitter: when the marker occurs in the text the
splitter succeeds. -/
theorem splitFirst_isSome_of_decomp (m : List Char) :
    ∀ (a b : List Char), (splitFirst m (a ++ m ++ b)).isSome := by
  intro a
  induction a with
  | nil =>
    intro b
    cases m with
    | nil =>
      cases b with
      | nil => simp [splitFirst]
      | cons c cs => simp [splitFirst, List.isPrefixOf]
    | cons c m' =>
      have hpre : (c :: m').isPrefixOf (c :: (m' ++ b)) = true := by
        exact List.isPrefixOf_iff_prefix.mpr (List.prefix_append (c :: m') b)
      have hrw : ([] : List Char) ++ (c :: m') ++ b = c :: (m' ++ b) := by simp
      rw [hrw, splitFirst_cons]
      simp only [hpre]
      rfl
  | cons c a' ih =>
    intro b
    have hrw : (c :: a') ++ m ++ b = c :: (a' ++ m ++ b) := by simp
    rw [hrw, splitFirst_cons]
    cases hp : m.isPrefixOf (c :: (a' ++ m ++ b)) with
    | true => simp only [hp]; rfl
    | false =>
      simp only [hp]
      have h1 := ih b
      cases hsf : splitFirst m (a' ++ m ++ b) with
      | none => rw [hsf] at h1; exact absurd h1 (by simp)
      | some p => simp [hsf]

/-- First-occurrence property of the splitter: when the marker does not
occur strictly before the shown occurrence (expressed via `dropLast`,
which removes exactly the positions that would let an occurrence start
before `a`'s end), the splitter cuts exactly at that occurrence. -/
theorem splitFirst_append (m : List Char) (hm : m ≠ []) :
    ∀ (a b : List Char), splitFirst m (a ++ m.dropLast) = none →
      splitFirst m (a ++ m ++ b) = some (a, b) := by
  intro a
  induction a with
  | nil =>
    intro b _
    cases m with
    | nil => exact absurd rfl hm
    | cons c m' =>
      have hpre : (c :: m').isPrefixOf (c :: (m' ++ b)) = true := by
        exact List.isPrefixOf_iff_prefix.mpr (List.prefix_append (c :: m') b)
      have hrw : ([] : List Char) ++ (c :: m') ++ b = c :: (m' ++ b) := by simp
      rw [hrw, splitFirst_cons]
      simp only [hpre]
      simp [List.drop_left]
  | cons c a' ih =>
    intro b h
    have hcons : (c :: a') ++ m.dropLast = c :: (a' ++ m.dropLast) := by simp
    rw [hcons, splitFirst_cons] at h
    cases hp : m.isPrefixOf (c :: (a' ++ m.dropLast)) with
    | true =>
      simp only [hp] at h
      exact Option.noConfusion h
    | false =>
      simp only [hp] at h
      have htail : splitFirst m (a' ++ m.dropLast) = none := by
        cases hsf : splitFirst m (a' ++ m.dropLast) with
        | none => rfl
        | some p => rw [hsf] at h; simp at h
      have hp2 : m.isPrefixOf (c :: (a' ++ m ++ b)) = false := by
        cases hxx : m.isPrefixOf (c :: (a' ++ m ++ b)) with
        | false => rfl
        | true =>
          exfalso
          have hpfx : m <+: c :: (a' ++ m ++ b) := List.isPrefixOf_iff_prefix.mp hxx
          have hdl : m.dropLast ++ (m.getLast hm :: b) = m ++ b := by
            have hg := List.dropLast_append_getLast hm
            calc m.dropLast ++ (m.getLast hm :: b)
                = (m.dropLast ++ [m.getLast hm]) ++ b := by simp
              _ = m ++ b := by rw [hg]
          have hshort : (c :: (a' ++ m.dropLast)) <+: (c :: (a' ++ m ++ b)) := by
            refine ⟨m.getLast hm :: b, ?_⟩
            simp only [List.cons_append, List.append_assoc, hdl]
          have hmlen : 0 < m.length := List.length_pos.mpr hm
          have hlen : m.length ≤ (c :: (a' ++ m.dropLast)).length := by
            simp only [List.length_cons, List.length_append, List.length_dropLast]
            omega
          have hsp := List.prefix_of_prefix_length_le hpfx hshort hlen
          have : m.isPrefixOf (c :: (a' ++ m.dropLast)) = true :=
            List.isPrefixOf_iff_prefix.mpr hsp
          rw [this] at hp
          exact Bool.noConfusion hp
      have hrw : (c :: a') ++ m ++ b = c :: (a' ++ m ++ b) := by simp
      rw [hrw, splitFirst_cons]
      simp only [hp2, ih b htail]
      rfl

/-- C1 counterexample: a body made of a line beginning `Device:`, then a
line beginning `Event:`, then a line beginning `Speed:` — the block the
claim quantifies over — on which `extract_dtc_info` nevertheless
returns `none`, because the regex literal is `"Device: "` with a
mandatory space after the colon and this body has none. -/
theorem C1_counterexample :
    ("Device:".toList.isPrefixOf cexLine1
      && "Event:".toList.isPrefixOf cexLine2
      && "Speed:".toList.isPrefixOf cexLine3) = true
    ∧ extract_dtc_info cexC1 = none := by
  decide

/-- C1 (amended): for every body containing the block in the form the
regex matches — `"Device: "` (colon and space), later a line beginning
`"Event: "`, later a line beginning `"Speed:"`, taking first
occurrences — extraction succeeds, the vehicle name is exactly the
stripped text between `"Device: "` and `"\nEvent: "`, and the fault
text is exactly the stripped text between `"\nEvent: "` and
`"\nSpeed:"`, even when that capture spans several lines. -/
theorem C1_extract_block (pre v f rest : List Char)
    (h1 : splitFirst devM (pre ++ devM.dropLast) = none)
    (h2 : splitFirst evM (v ++ evM.dropLast) = none)
    (h3 : splitFirst spM (f ++ spM.dropLast) = none) :
    (extract_dtc_info (pre ++ devM ++ v ++ evM ++ f ++ spM ++ rest)).map Frag.vehicle_name
        = some (pyStrip v)
    ∧ (extract_dtc_info (pre ++ devM ++ v ++ evM ++ f ++ spM ++ rest)).map Frag.dtc_text
        = some (pyStrip f) := by
  have e1 : splitFirst devM (pre ++ devM ++ (v ++ evM ++ f ++ spM ++ rest))
      = some (pre, v ++ evM ++ f ++ spM ++ rest) :=
    splitFirst_append devM (by decide) pre (v ++ evM ++ f ++ spM ++ rest) h1
  have e2 : splitFirst evM (v ++ evM ++ (f ++ spM ++ rest))
      = some (v, f ++ spM ++ rest) :=
    splitFirst_append evM (by decide) v (f ++ spM ++ rest) h2
  have e3 : splitFirst spM (f ++ spM ++ rest) = some (f, rest) :=
    splitFirst_append spM (by decide) f rest h3
  simp only [List.append_assoc] at e1 e2 e3 ⊢
  simp [extract_dtc_info, e1, e2, e3]

/-- C1 witness: spec scenario A, `"Device: Truck-12\nEvent: P0301
misfire\nSpeed: 0\n"` yields vehicle name `Truck-12` and fault text
`P0301 misfire`. -/
theorem C1_witness :
    (extract_dtc_info bodyA).map Frag.vehicle_name = some ("Truck-12".toList)
    ∧ (extract_dtc_info bodyA).map Frag.dtc_text = some ("P0301 misfire".toList) := by
  have h := C1_extract_block [] ("Truck-12".toList) ("P0301 misfire".toList) (" 0\n".toList)
      (by decide) (by decide) (by decide)
  have e : [] ++ devM ++ "Truck-12".toList ++ evM ++ "P0301 misfire".toList
      ++ spM ++ " 0\n".toList = bodyA := by decide
  have ev : pyStrip ("Truck-12".toList) = "Truck-12".toList := by decide
  have ef : pyStrip ("P0301 misfire".toList) = "P0301 misfire".toList := by decide
  rw [e, ev, ef] at h
  exact h

/-- C2 counterexample: the body `"Device: \nEvent: \nSpeed:"` extracts
successfully with both captures stripping to the empty string, and the
pipeline persists that row — so a stored record can have empty
`vehicle_name` and `dtc_text`, contradicting the claimed non-emptiness
invariant. -/
theorem C2_counterexample :
    (fetch_analyze (mkMailbox [{ body := bodyEmptyCaps, dateHeader := "d".toList }])
        svcOk emptyTable (1, 1)).map
      (fun rr => rr.table.rows.map (fun r => (r.vehicle_name, r.dtc_text)))
      = .ok [([], [])] := rfl

/-- Every row appended by the analyze loop carries the vehicle name,
fault text and raw body of the entry it was built from. -/
theorem foldl_pipelineStep_rows (svc : List Char → Except String String) (now : Nat × Nat) :
    ∀ (entries : List Entry) (acc : Table Row × List Status),
      ∃ nr, (entries.foldl (pipelineStep svc now) acc).1.rows = acc.1.rows ++ nr
        ∧ ∀ r ∈ nr, ∃ en ∈ entries,
            r.vehicle_name = en.vehicle_name ∧ r.dtc_text = en.dtc_text
              ∧ r.raw_email = en.raw_email := by
  intro entries
  induction entries with
  | nil =>
    intro acc
    exact ⟨[], by simp, by simp⟩
  | cons en es ih =>
    intro acc
    obtain ⟨nr, h1, h2⟩ := ih (pipelineStep svc now acc en)
    refine ⟨insertedRow acc.1 en.vehicle_name en.dtc_text
        (interpret_dtc svc en.dtc_text).1 en.gps_coordinates en.location_address
        en.raw_email en.email_timestamp now :: nr, ?_, ?_⟩
    · rw [List.foldl_cons, h1]
      show (save_to_db acc.1 en.vehicle_name en.dtc_text
          (interpret_dtc svc en.dtc_text).1 en.gps_coordinates en.location_address
          en.raw_email en.email_timestamp now).rows ++ nr = _
      simp [save_to_db]
    · intro r hr
      rcases List.mem_cons.mp hr with hr | hr
      · subst hr
        exact ⟨en, List.mem_cons_self en es, rfl, rfl, rfl⟩
      · obtain ⟨en', hen', hf⟩ := h2 r hr
        exact ⟨en', List.mem_cons_of_mem en hen', hf⟩

/-- Every entry handed over by `fetch_emails` comes from a message body
on which `extract_dtc_info` succeeded, with matching fields. -/
theorem fetch_entries_from_extraction (mb : Mailbox) (fr : FetchResult)
    (h : fetch_emails mb = .ok fr) :
    ∀ en ∈ fr.entries, ∃ (m : RawMsg) (frag : Frag), extract_dtc_info m.body = some frag
      ∧ en.vehicle_name = frag.vehicle_name ∧ en.dtc_text = frag.dtc_text
      ∧ en.raw_email = m.body := by
  intro en hen
  unfold fetch_emails at h
  cases hc : mb.connect with
  | error e => rw [hc] at h; exact Except.noConfusion h
  | ok u =>
    rw [hc] at h
    cases hl : mb.login with
    | error e => rw [hl] at h; exact Except.noConfusion h
    | ok u2 =>
      rw [hl] at h
      cases hs : mb.selectInbox with
      | error e => rw [hs] at h; exact Except.noConfusion h
      | ok u3 =>
        rw [hs] at h
        cases hse : mb.search with
        | error e =>
          rw [hse] at h
          cases h
          exact absurd hen (List.not_mem_nil en)
        | ok msgs =>
          rw [hse] at h
          cases msgs with
          | nil =>
            cases h
            exact absurd hen (List.not_mem_nil en)
          | cons m0 ms =>
            cases h
            obtain ⟨m, hm, hpm⟩ := List.mem_filterMap.mp hen
            unfold processMsg at hpm
            cases hx : extract_dtc_info m.body with
            | none =>
              simp only [hx] at hpm
              exact Option.noConfusion hpm
            | some f =>
              simp only [hx] at hpm
              cases hpm
              exact ⟨m, f, hx, rfl, rfl, rfl⟩

/-- C2 (amended): every row the pipeline appends to the store comes from
a successful extraction (messages failing extraction are dropped before
persistence and nothing partial is written); its vehicle name and fault
text are the stripped captures of that extraction, which may be empty
strings — non-emptiness is not guaranteed. -/
theorem C2_provenance (mb : Mailbox) (svc : List Char → Except String String)
    (st : Table Row) (now : Nat × Nat) (tbl : Table Row)
    (h : (fetch_analyze mb svc st now).map RunResult.table = .ok tbl) :
    st.rows <+: tbl.rows ∧ ∀ r ∈ tbl.rows.drop st.rows.length, rowFromExtraction r := by
  unfold fetch_analyze at h
  cases hfe : fetch_emails mb with
  | error e => rw [hfe] at h; exact Except.noConfusion h
  | ok fr =>
    rw [hfe] at h
    cases hent : fr.entries with
    | nil =>
      simp only [hent, Except.map] at h
      have htbl : st = tbl := by simpa using Except.ok.inj h
      subst htbl
      refine ⟨List.prefix_refl _, ?_⟩
      intro r hr
      rw [List.drop_length] at hr
      exact absurd hr (List.not_mem_nil r)
    | cons en es =>
      simp only [hent, Except.map] at h
      obtain ⟨nr, h1, h2⟩ := foldl_pipelineStep_rows svc now (en :: es) (st, fr.statuses)
      have htbl : ((en :: es).foldl (pipelineStep svc now) (st, fr.statuses)).1 = tbl :=
        by simpa using Except.ok.inj h
      rw [htbl] at h1
      constructor
      · exact ⟨nr, h1.symm⟩
      · intro r hr
        rw [h1, List.drop_left] at hr
        obtain ⟨en', hen', hv, hd, hraw⟩ := h2 r hr
        have hen'' : en' ∈ fr.entries := by rw [hent]; exact hen'
        obtain ⟨m, frag, hx, hv2, hd2, hraw2⟩ :=
          fetch_entries_from_extraction mb fr hfe en' hen''
        exact ⟨m.body, frag, hx, hv.trans hv2, hd.trans hd2, hraw.trans hraw2⟩

/-- C2 witness: a concrete run through the pipeline produces a row that
satisfies the provenance predicate. -/
theorem C2_witness : rowFromExtraction c2WitnessRow := by
  have h := C2_provenance (mkMailbox [msgA]) svcOk emptyTable (1, 1) c2Tbl (by rfl)
  exact h.2 c2WitnessRow (by decide)

/-- C3 counterexample: a login (authentication) failure is raised before
the try block of `fetch_emails` begins, so the exception escapes the
function instead of being reported with an empty result — the claim
that all three transport failure kinds are contained is false. -/
theorem C3_counterexample :
    fetch_emails mbAuthFail = .error ("auth failed") := rfl

/-- C3 (amended): only a search failure is caught by `fetch_emails`: it
is reported on the status channel and yields an empty entry list;
connection, login and select failures are raised before the try block
and escape the function. -/
theorem C3_transport (mb : Mailbox) (e : String) :
    (mb.connect = .ok () → mb.login = .ok () → mb.selectInbox = .ok () →
        mb.search = .error e →
      fetch_emails mb = .ok (searchFailResult e))
    ∧ (mb.connect = .error e → fetch_emails mb = .error e)
    ∧ (mb.connect = .ok () → mb.login = .error e → fetch_emails mb = .error e)
    ∧ (mb.connect = .ok () → mb.login = .ok () → mb.selectInbox = .error e →
        fetch_emails mb = .error e) := by
  refine ⟨?_, ?_, ?_, ?_⟩
  · intro hc hl hs hse
    simp [fetch_emails, hc, hl, hs, hse, searchFailResult]
  · intro hc
    simp [fetch_emails, hc]
  · intro hc hl
    simp [fetch_emails, hc, hl]
  · intro hc hl hs
    simp [fetch_emails, hc, hl, hs]

/-- C3 witness: concrete mailboxes exercising the four transport
failure paths. -/
theorem C3_witness :
    fetch_emails mbSearchFail = .ok (searchFailResult ("bad query"))
    ∧ fetch_emails mbConnFail = .error ("conn refused")
    ∧ fetch_emails mbAuthFail = .error ("auth failed")
    ∧ fetch_emails mbSelectFail = .error ("select failed") :=
  ⟨(C3_transport mbSearchFail ("bad query")).1 rfl rfl rfl rfl,
   (C3_transport mbConnFail ("conn refused")).2.1 rfl,
   (C3_transport mbAuthFail ("auth failed")).2.2.1 rfl rfl,
   (C3_transport mbSelectFail ("select failed")).2.2.2 rfl rfl rfl⟩

/-- C4: whenever the completion-service call raises, `interpret_dtc`
returns exactly the fallback string `"Error interpreting DTC code"`
(the exception is absorbed by its handler — the function is total), and
the pipeline still persists the record with that string as its
interpretation. -/
theorem C4_interpret_fallback (svc : List Char → Except String String)
    (m : RawMsg) (frag : Frag) (st : Table Row) (now : Nat × Nat) (e : String)
    (hex : extract_dtc_info m.body = some frag)
    (hsvc : svc frag.dtc_text = .error e) :
    (interpret_dtc svc frag.dtc_text).1 = "Error interpreting DTC code"
    ∧ (fetch_analyze (mkMailbox [m]) svc st now).map RunResult.table
        = .ok { st with rows := st.rows ++ [insertedRow st frag.vehicle_name frag.dtc_text
            ("Error interpreting DTC code") frag.gps_coordinates frag.location_address
            m.body m.dateHeader now] } := by
  constructor
  · simp [interpret_dtc, hsvc]
  · simp [fetch_analyze, fetch_emails, mkMailbox, processMsg, hex, pipelineStep,
      interpret_dtc, hsvc, save_to_db, Except.map]

/-- C4 witness: spec scenario B with a timeout-raising service on the
scenario-A message. -/
theorem C4_witness :
    (interpret_dtc svcTimeout fragA.dtc_text).1 = "Error interpreting DTC code"
    ∧ (fetch_analyze (mkMailbox [msgA]) svcTimeout emptyTable (1, 1)).map RunResult.table
        = .ok { emptyTable with rows := emptyTable.rows ++ [insertedRow emptyTable
            fragA.vehicle_name fragA.dtc_text ("Error interpreting DTC code")
            fragA.gps_coordinates fragA.location_address msgA.body msgA.dateHeader (1, 1)] } :=
  C4_interpret_fallback svcTimeout msgA fragA emptyTable (1, 1) ("timeout") (by decide) rfl

/-- Success of the extraction exhibits the three-marker block inside the
body. -/
theorem hasBlock_of_extract_isSome (text : List Char)
    (h : (extract_dtc_info text).isSome) : hasBlock text := by
  unfold extract_dtc_info at h
  cases s1 : splitFirst devM text with
  | none => rw [s1] at h; simp at h
  | some p1 =>
    rw [s1] at h
    cases p1 with
    | mk a1 r1 =>
      cases s2 : splitFirst evM r1 with
      | none => simp only [s2] at h; simp at h
      | some p2 =>
        cases p2 with
        | mk v r2 =>
          cases s3 : splitFirst spM r2 with
          | none => simp only [s2, s3] at h; simp at h
          | some p3 =>
            cases p3 with
            | mk f r3 =>
              have d1 := splitFirst_sound devM text a1 r1 s1
              have d2 := splitFirst_sound evM r1 v r2 s2
              have d3 := splitFirst_sound spM r2 f r3 s3
              refine ⟨a1, v, f, r3, ?_⟩
              rw [d1, d2, d3]
              simp [List.append_assoc]

/-- When the `"Device: "` marker is absent there is no block at all. -/
theorem not_hasBlock_of_no_dev (text : List Char)
    (h : splitFirst devM text = none) : ¬ hasBlock text := by
  rintro ⟨pre, v, f, rest, heq⟩
  have hs := splitFirst_isSome_of_decomp devM pre (v ++ evM ++ f ++ spM ++ rest)
  have heq' : pre ++ devM ++ (v ++ evM ++ f ++ spM ++ rest) = text := by
    rw [heq]; simp [List.append_assoc]
  rw [heq', h] at hs
  exact Bool.noConfusion hs

/-- C5: a body lacking the `Device:`/`Event:`/`Speed:` block makes
`extract_dtc_info` return `none`, and a pipeline run over a message
with that body leaves the store's rows unchanged — the message is
skipped with no partial write. -/
theorem C5_no_match_skip (body : List Char) (h : ¬ hasBlock body) :
    extract_dtc_info body = none
    ∧ ∀ (d : List Char) (svc : List Char → Except String String)
        (st : Table Row) (now : Nat × Nat),
        (fetch_analyze (mkMailbox [{ body := body, dateHeader := d }]) svc st now).map
          (fun rr => rr.table.rows) = .ok st.rows := by
  have hnone : extract_dtc_info body = none := by
    cases hx : extract_dtc_info body with
    | none => rfl
    | some f =>
      exact absurd (hasBlock_of_extract_isSome body (by rw [hx]; rfl)) h
  refine ⟨hnone, ?_⟩
  intro d svc st now
  simp [fetch_analyze, fetch_emails, mkMailbox, processMsg, hnone, Except.map]

/-- C5 witness: the body `"hello"` has no block; extraction misses and a
run over it writes nothing. -/
theorem C5_witness :
    extract_dtc_info ("hello".toList) = none
    ∧ (fetch_analyze (mkMailbox [{ body := "hello".toList, dateHeader := "d".toList }])
        svcOk emptyTable (1, 1)).map (fun rr => rr.table.rows) = .ok emptyTable.rows := by
  have h := C5_no_match_skip ("hello".toList)
      (not_hasBlock_of_no_dev ("hello".toList) (by decide))
  exact ⟨h.1, h.2 ("d".toList) svcOk emptyTable (1, 1)⟩

/-- C6 counterexample: `timestamp` is a required column, yet on a legacy
table that lacks it (and holds a row) `init_db` does not add it — and a
second call does not either — because SQLite rejects `ALTER TABLE ...
ADD COLUMN` with the non-constant default `CURRENT_TIMESTAMP` and the
code catches the error and moves on.  This refutes the claim's "any
missing required column is added in place". -/
theorem C6_counterexample :
    "timestamp" ∈ requiredColumns
    ∧ "timestamp" ∉ legacyCols
    ∧ "timestamp" ∉ (init_db (some legacyTable)).cols
    ∧ "timestamp" ∉ (init_db (some (init_db (some legacyTable)))).cols
    ∧ (init_db (some legacyTable)).rows = legacyTable.rows := by
  decide

/-- C6 (amended): `init_db` is idempotent — a second call is the
identity on the store, so it never drops or alters rows and adds zero
columns — it creates the table (with all columns) when absent, and when
present it adds every missing required column whose declared type
SQLite can ALTER in, preserving all existing rows; the `timestamp`
column, declared with the non-constant default `CURRENT_TIMESTAMP`,
can never be added to an existing table — its ALTER always fails and is
only reported. -/
theorem C6_schema_idempotent (α : Type) (s : Option (Table α)) :
    init_db (some (init_db s)) = init_db s
    ∧ (init_db s).rows = rowsOf s
    ∧ init_db (none : Option (Table α)) = { cols := createCols, rows := [] }
    ∧ ∀ p ∈ required_columns, addColumnOk p.2 = true → p.1 ∈ (init_db s).cols := by
  have hsub : ∀ (cols : List String), ∀ p ∈ required_columns, addColumnOk p.2 = true →
      p.1 ∈ cols ++ (required_columns.filter
        (fun q => !(cols.contains q.1) && addColumnOk q.2)).map Prod.fst := by
    intro cols p hp hadd
    by_cases hmem : p.1 ∈ cols
    · exact List.mem_append_left _ hmem
    · refine List.mem_append_right _ ?_
      refine List.mem_map.mpr ⟨p, ?_, rfl⟩
      rw [List.mem_filter]
      exact ⟨hp, by simp [hmem, hadd]⟩
  have key : ∀ (t : Table α),
      (∀ p ∈ required_columns, addColumnOk p.2 = true → p.1 ∈ t.cols) →
      init_db (some t) = t := by
    intro t ht
    have hfil : required_columns.filter
        (fun p => !(t.cols.contains p.1) && addColumnOk p.2) = [] := by
      rw [List.filter_eq_nil_iff]
      intro p hp
      cases hadd : addColumnOk p.2 with
      | false => simp [hadd]
      | true =>
        have hmem := ht p hp hadd
        simp [hadd, hmem]
    show Table.mk (t.cols ++ (required_columns.filter
        (fun p => !(t.cols.contains p.1) && addColumnOk p.2)).map Prod.fst) t.rows = t
    rw [hfil]
    simp
  cases s with
  | none =>
    have hcreate : ∀ p ∈ required_columns, addColumnOk p.2 = true → p.1 ∈ createCols := by
      decide
    refine ⟨key _ ?_, rfl, rfl, ?_⟩
    · intro p hp hadd
      simpa [init_db] using hcreate p hp hadd
    · intro p hp hadd
      simpa [init_db] using hcreate p hp hadd
  | some t =>
    refine ⟨key _ ?_, rfl, rfl, ?_⟩
    · intro p hp hadd
      simpa [init_db] using hsub t.cols p hp hadd
    · intro p hp hadd
      simpa [init_db] using hsub t.cols p hp hadd

/-- C7: the history query returns exactly the rows whose store-assigned
date lies in the inclusive range — a row dated exactly the end date is
included — optionally restricted to an exact vehicle-name match, and
the result is sorted by the store-assigned timestamp descending. -/
theorem C7_history (t : Table Row) (sd ed : Nat) (vf : Option (List Char)) :
    (∀ r : Row, r ∈ show_history t sd ed vf ↔
        (r ∈ t.rows ∧ sd ≤ r.timestamp.1 ∧ r.timestamp.1 ≤ ed ∧ vehicleMatches vf r))
    ∧ (show_history t sd ed vf).Perm (t.rows.filter (historyPred sd ed vf))
    ∧ List.Sorted tsDescRel (show_history t sd ed vf) := by
  refine ⟨?_, List.perm_insertionSort _ _, List.sorted_insertionSort _ _⟩
  intro r
  rw [show_history, List.mem_insertionSort, List.mem_filter]
  simp [historyPred, and_assoc]

/-- C7 witness: a row dated exactly at the end of the range is returned
(inclusive boundary). -/
theorem C7_witness : rEnd ∈ show_history tblEnd 0 5 none :=
  ((C7_history tblEnd 0 5 none).1 rEnd).mpr ⟨by decide, by decide, by decide, trivial⟩

/-- C8: round-trip — after inserting a record, querying the store for
the record's creation date and vehicle name returns it, with fault
text, interpretation and raw body identical to what was inserted. -/
theorem C8_roundtrip (t : Table Row) (vehicle dtc : List Char) (ai : String)
    (gps loc raw ets : List Char) (now : Nat × Nat) :
    insertedRow t vehicle dtc ai gps loc raw ets now
        ∈ show_history (save_to_db t vehicle dtc ai gps loc raw ets now)
            now.1 now.1 (some vehicle)
    ∧ (insertedRow t vehicle dtc ai gps loc raw ets now).dtc_text = dtc
    ∧ (insertedRow t vehicle dtc ai gps loc raw ets now).ai_interpretation = ai
    ∧ (insertedRow t vehicle dtc ai gps loc raw ets now).raw_email = raw := by
  refine ⟨?_, rfl, rfl, rfl⟩
  rw [show_history, List.mem_insertionSort, List.mem_filter]
  constructor
  · simp [save_to_db]
  · simp [historyPred, insertedRow, vehicleMatches]

/-- C9 counterexample: on the no-results path `fetch_emails` returns
without calling `mail.logout()`, so the connection opened for the run
is left open — the claimed release on every path is false. -/
theorem C9_counterexample :
    (fetch_emails (mkMailbox [])).map FetchResult.loggedOut = .ok false := rfl

/-- C9 (amended): `mail.logout()` is reached only on the successful
path with a non-empty message list; the no-results path and the
search-failure path return with the connection still open, and
connect/login/select failures escape before any release. -/
theorem C9_logout_paths (mb : Mailbox) (msgs : List RawMsg) (e : String) :
    mb.connect = .ok () → mb.login = .ok () → mb.selectInbox = .ok () →
      ((mb.search = .ok msgs → msgs ≠ [] →
          (fetch_emails mb).map FetchResult.loggedOut = .ok true)
        ∧ (mb.search = .ok [] →
          (fetch_emails mb).map FetchResult.loggedOut = .ok false)
        ∧ (mb.search = .error e →
          (fetch_emails mb).map FetchResult.loggedOut = .ok false)) := by
  intro hc hl hs
  refine ⟨?_, ?_, ?_⟩
  · intro hse hne
    cases msgs with
    | nil => exact absurd rfl hne
    | cons m0 ms => simp [fetch_emails, hc, hl, hs, hse, Except.map]
  · intro hse
    simp [fetch_emails, hc, hl, hs, hse, Except.map]
  · intro hse
    simp [fetch_emails, hc, hl, hs, hse, Except.map]

/-- C9 witness: logout on the one-message success path, no logout on
the empty-search and failing-search paths. -/
theorem C9_witness :
    (fetch_emails (mkMailbox [msgA])).map FetchResult.loggedOut = .ok true
    ∧ (fetch_emails (mkMailbox [])).map FetchResult.loggedOut = .ok false
    ∧ (fetch_emails mbSearchFail).map FetchResult.loggedOut = .ok false :=
  ⟨(C9_logout_paths (mkMailbox [msgA]) [msgA] ("e") rfl rfl rfl).1 rfl (by decide),
   (C9_logout_paths (mkMailbox []) [] ("e") rfl rfl rfl).2.1 rfl,
   (C9_logout_paths mbSearchFail [] ("bad query") rfl rfl rfl).2.2 rfl⟩

/-- C10: module startup on a fresh store — `get_unique_vehicles` runs
before `init_db` and its SELECT on the missing `dtc_logs` table raises
an uncaught `sqlite3.OperationalError`; the startup fails before the
schema-creating `init_db` (which would have produced the full column
list) is reached. -/
theorem C10_startup_crash :
    moduleStartup none = .error ("no such table: dtc_logs")
    ∧ get_unique_vehicles none = .error ("no such table: dtc_logs")
    ∧ (init_db (none : Option (Table Row))).cols = createCols :=
  ⟨rfl, rfl, rfl⟩

/-- C6 witness: on a fresh store the second `init_db` call is the
identity, and the migration guarantee holds at the concrete addable
column `vehicle_name` (declared TEXT). -/
theorem C6_witness :
    init_db (some (init_db (none : Option (Table Row)))) = init_db none
    ∧ "vehicle_name" ∈ (init_db (none : Option (Table Row))).cols :=
  ⟨(C6_schema_idempotent Row none).1,
   (C6_schema_idempotent Row none).2.2.2 ("vehicle_name", "TEXT") (by decide) (by decide)⟩
